import Mathlib

/-!
Verification of the authorization core of the hyperspot repository:
the PEP constraint compiler (authz_resolver-sdk/src/pep/compiler.rs),
the access-scope value type (modkit-security/src/access_scope.rs),
the scope-to-storage translator (modkit-db/src/secure/cond.rs),
the reference allow-all PDP (static_authz_plugin/src/domain/service.rs),
and the PEP request builder (authz_resolver-sdk/src/pep/enforcer.rs).

Rust types are shallowly embedded: structs become structures, enums become
inductive types, Vec becomes List, Option stays Option, Result becomes
Except, and Uuid is wrapped as a structure over Nat with a distinguished
nil value.
-/

/-- Shallow model of a Uuid: only identity and the distinguished nil value
matter to the authorization core. -/
structure Uuid where
  val : Nat
deriving DecidableEq

/-- The nil Uuid (Uuid::default() in the sources). -/
def Uuid.nil : Uuid := ⟨0⟩

/-- Boolean membership of a Uuid in a list (Vec::contains). -/
def uuidMem (x : Uuid) (l : List Uuid) : Bool :=
  l.any (fun y => decide (y = x))

/-- Modelled from the spec: the constraints module of authz_resolver-sdk is
declared by lib.rs but its file is not among the provided sources; the shapes
follow the Predicate vocabulary of the spec (Eq over a single Uuid value, In
over a Uuid list) and every use site in compiler.rs and service.rs.
Equality predicate on a single Uuid-valued property. -/
structure EqPredicate where
  property : String
  value : Uuid
deriving DecidableEq

/-- Set-membership predicate on a Uuid-valued property. -/
structure InPredicate where
  property : String
  values : List Uuid
deriving DecidableEq

/-- A PDP predicate: either equality or set membership. -/
inductive Predicate where
  | eq : EqPredicate → Predicate
  | inPred : InPredicate → Predicate
deriving DecidableEq

/-- The property a predicate constrains. -/
def Predicate.property : Predicate → String
  | .eq e => e.property
  | .inPred i => i.property

/-- A PDP constraint: a conjunction of predicates. -/
structure Constraint where
  predicates : List Predicate
deriving DecidableEq

/-- A row at the authorization-property level: each well-known property
carries one Uuid value. -/
def Row : Type := String → Uuid

/-- A row satisfies a predicate (Eq: the value matches; In: membership). -/
def Predicate.satB (row : Row) : Predicate → Bool
  | .eq e => decide (row e.property = e.value)
  | .inPred i => uuidMem (row i.property) i.values

/-- A row satisfies a constraint iff it satisfies every predicate (AND). -/
def Constraint.satB (row : Row) (c : Constraint) : Bool :=
  c.predicates.all (Predicate.satB row)

/-- PDP evaluation response (models.rs): a boolean decision and an ordered
disjunction of constraints. -/
structure EvaluationResponse where
  decision : Bool
  constraints : List Constraint
deriving DecidableEq

/-- Filter operation of a scope filter (access_scope.rs). Only In exists. -/
inductive FilterOp where
  | In
deriving DecidableEq

/-- A single scope filter: a condition on a named resource property. -/
structure ScopeFilter where
  property : String
  op : FilterOp
  values : List Uuid
deriving DecidableEq

/-- ScopeFilter::new. -/
def ScopeFilter.new (property : String) (op : FilterOp) (values : List Uuid) : ScopeFilter :=
  ⟨property, op, values⟩

/-- A conjunction (AND) of scope filters — one access path. -/
structure ScopeConstraint where
  filters : List ScopeFilter
deriving DecidableEq

/-- ScopeConstraint::new. -/
def ScopeConstraint.new (filters : List ScopeFilter) : ScopeConstraint :=
  ⟨filters⟩

/-- ScopeConstraint::is_empty. -/
def ScopeConstraint.is_empty (c : ScopeConstraint) : Bool :=
  c.filters.isEmpty

/-- A disjunction (OR) of scope constraints plus the allow-all flag
(access_scope.rs). -/
structure AccessScope where
  constraints : List ScopeConstraint
  unconstrained : Bool
deriving DecidableEq

namespace AccessScope

/-- AccessScope::from_constraints. -/
def from_constraints (constraints : List ScopeConstraint) : AccessScope :=
  ⟨constraints, false⟩

/-- AccessScope::single. -/
def single (constraint : ScopeConstraint) : AccessScope :=
  from_constraints [constraint]

/-- AccessScope::allow_all. -/
def allow_all : AccessScope :=
  ⟨[], true⟩

/-- AccessScope::deny_all. -/
def deny_all : AccessScope :=
  ⟨[], false⟩

/-- AccessScope::default is deny_all. -/
def default : AccessScope :=
  deny_all

/-- AccessScope::for_tenants. -/
def for_tenants (ids : List Uuid) : AccessScope :=
  single (ScopeConstraint.new [ScopeFilter.new "owner_tenant_id" FilterOp.In ids])

/-- AccessScope::for_tenant. -/
def for_tenant (id : Uuid) : AccessScope :=
  for_tenants [id]

/-- AccessScope::for_resources. -/
def for_resources (ids : List Uuid) : AccessScope :=
  single (ScopeConstraint.new [ScopeFilter.new "id" FilterOp.In ids])

/-- AccessScope::for_resource. -/
def for_resource (id : Uuid) : AccessScope :=
  for_resources [id]

/-- AccessScope::for_tenants_and_resources: a single path with a tenant
filter and a resource filter, each added only when its id list is
non-empty; collapses to deny_all when both are empty. -/
def for_tenants_and_resources (tenant_ids resource_ids : List Uuid) : AccessScope :=
  let filters :=
    (if tenant_ids.isEmpty then [] else [ScopeFilter.new "owner_tenant_id" FilterOp.In tenant_ids])
      ++ (if resource_ids.isEmpty then [] else [ScopeFilter.new "id" FilterOp.In resource_ids])
  if filters.isEmpty then deny_all else single (ScopeConstraint.new filters)

/-- Modelled from the spec: AccessScope::both is called by
compile_to_access_scope but its definition is not among the provided
sources. The spec constructor vocabulary and the compiler tests (merged
tenant and resource IDs forming one access path whose tenant filter and
resource filter are both present exactly when non-empty) identify it with
for_tenants_and_resources, which has the same signature and the doc
comment: a scope with both tenant AND resource constraints, single path. -/
def both (tenant_ids resource_ids : List Uuid) : AccessScope :=
  for_tenants_and_resources tenant_ids resource_ids

/-- AccessScope::is_unconstrained. -/
def is_unconstrained (s : AccessScope) : Bool :=
  s.unconstrained

/-- AccessScope::is_deny_all. -/
def is_deny_all (s : AccessScope) : Bool :=
  !s.unconstrained && s.constraints.isEmpty

/-- AccessScope::all_values_for. -/
def all_values_for (s : AccessScope) (property : String) : List Uuid :=
  (s.constraints.map (fun c =>
    (c.filters.filterMap (fun f =>
      if f.property = property ∧ f.op = FilterOp.In then some f.values else none)))).flatten.flatten

/-- AccessScope::contains_value. -/
def contains_value (s : AccessScope) (property : String) (id : Uuid) : Bool :=
  s.constraints.any (fun c =>
    c.filters.any (fun f =>
      decide (f.property = property) && decide (f.op = FilterOp.In) && uuidMem id f.values))

/-- AccessScope::has_property. -/
def has_property (s : AccessScope) (property : String) : Bool :=
  s.constraints.any (fun c => c.filters.any (fun f => decide (f.property = property)))

end AccessScope

/-- A row satisfies a scope filter: for the In op, membership of the row's
value for the named property. -/
def ScopeFilter.satB (row : Row) (f : ScopeFilter) : Bool :=
  match f.op with
  | .In => uuidMem (row f.property) f.values

/-- A row satisfies a scope constraint iff it satisfies every filter. -/
def ScopeConstraint.satB (row : Row) (c : ScopeConstraint) : Bool :=
  c.filters.all (ScopeFilter.satB row)

/-- A row satisfies a scope iff the scope is unconstrained or the row
satisfies at least one constraint (OR of ANDs, deny-all when empty). -/
def AccessScope.satB (s : AccessScope) (row : Row) : Bool :=
  s.unconstrained || s.constraints.any (ScopeConstraint.satB row)

/-- Error during constraint compilation (compiler.rs). -/
inductive ConstraintCompileError where
  | Denied
  | AllConstraintsFailed (reason : String)
deriving DecidableEq

/-- The constant failure message of compile_constraint. -/
def unsupportedMsg : String :=
  "constraint has unsupported predicates (only owner_tenant_id and id are supported)"

/-- Intermediate result from compiling a single constraint. -/
structure CompiledConstraint where
  tenant_ids : List Uuid
  resource_ids : List Uuid
deriving DecidableEq

/-- One iteration of the predicate loop of compile_constraint: the state is
(tenant_ids, resource_ids, has_unknown). -/
def compileConstraintStep (acc : List Uuid × List Uuid × Bool) (p : Predicate) :
    List Uuid × List Uuid × Bool :=
  match p with
  | .eq e =>
    if e.property = "owner_tenant_id" then (acc.1 ++ [e.value], acc.2.1, acc.2.2)
    else if e.property = "id" then (acc.1, acc.2.1 ++ [e.value], acc.2.2)
    else (acc.1, acc.2.1, true)
  | .inPred i =>
    if i.property = "owner_tenant_id" then (acc.1 ++ i.values, acc.2.1, acc.2.2)
    else if i.property = "id" then (acc.1, acc.2.1 ++ i.values, acc.2.2)
    else (acc.1, acc.2.1, true)

/-- compile_constraint (compiler.rs): collect tenant and resource IDs from
the predicates; fail with the constant message when any predicate targets a
property other than owner_tenant_id or id. -/
def compile_constraint (c : Constraint) : Except String CompiledConstraint :=
  let st := c.predicates.foldl compileConstraintStep ([], [], false)
  if st.2.2 then .error unsupportedMsg
  else .ok ⟨st.1, st.2.1⟩

/-- State of the constraint loop of compile_to_access_scope:
tenant_ids, resource_ids, any_compiled, fail_reasons. -/
structure Step4State where
  tenant_ids : List Uuid
  resource_ids : List Uuid
  any_compiled : Bool
  fail_reasons : List String
deriving DecidableEq

/-- One iteration of the constraint loop of compile_to_access_scope. -/
def step4 (st : Step4State) (c : Constraint) : Step4State :=
  match compile_constraint c with
  | .ok compiled =>
    { st with
      tenant_ids := st.tenant_ids ++ compiled.tenant_ids
      resource_ids := st.resource_ids ++ compiled.resource_ids
      any_compiled := true }
  | .error reason =>
    { st with fail_reasons := st.fail_reasons ++ [reason] }

/-- compile_to_access_scope (compiler.rs): the PEP decision matrix followed
by the merge of all compiled constraints into a single scope. -/
def compile_to_access_scope (response : EvaluationResponse) (require_constraints : Bool) :
    Except ConstraintCompileError AccessScope :=
  if response.decision = false then
    .error ConstraintCompileError.Denied
  else if require_constraints = false then
    .ok AccessScope.allow_all
  else if response.constraints.isEmpty then
    .ok AccessScope.allow_all
  else
    let st := response.constraints.foldl step4 ⟨[], [], false, []⟩
    if st.any_compiled = false then
      .error (ConstraintCompileError.AllConstraintsFailed (String.intercalate "; " st.fail_reasons))
    else if st.tenant_ids.isEmpty && st.resource_ids.isEmpty then
      .ok AccessScope.allow_all
    else
      .ok (AccessScope.both st.tenant_ids st.resource_ids)

/-- The tenant IDs a single predicate contributes. -/
def predTenant : Predicate → List Uuid
  | .eq e => if e.property = "owner_tenant_id" then [e.value] else []
  | .inPred i => if i.property = "owner_tenant_id" then i.values else []

/-- The resource IDs a single predicate contributes. -/
def predResource : Predicate → List Uuid
  | .eq e => if e.property = "id" then [e.value] else []
  | .inPred i => if i.property = "id" then i.values else []

/-- The tenant IDs a constraint contributes, in predicate order. -/
def tenantContrib (c : Constraint) : List Uuid :=
  (c.predicates.map predTenant).flatten

/-- The resource IDs a constraint contributes, in predicate order. -/
def resourceContrib (c : Constraint) : List Uuid :=
  (c.predicates.map predResource).flatten

/-- A property the built-in compiler vocabulary supports. -/
def builtinSupportedB (s : String) : Bool :=
  decide (s = "owner_tenant_id") || decide (s = "id")

/-- A constraint fails compilation iff some predicate is unsupported. -/
def constraintFailsB (c : Constraint) : Bool :=
  c.predicates.any (fun p => !builtinSupportedB p.property)

/-- The failure reasons collected by the constraint loop, in order. -/
def failedReasons (cs : List Constraint) : List String :=
  cs.filterMap (fun c =>
    match compile_constraint c with
    | .error r => some r
    | .ok _ => none)

/-- The tenant IDs merged over all successfully compiled constraints. -/
def mergedTenants (cs : List Constraint) : List Uuid :=
  ((cs.filterMap (fun c => (compile_constraint c).toOption)).map CompiledConstraint.tenant_ids).flatten

/-- The resource IDs merged over all successfully compiled constraints. -/
def mergedResources (cs : List Constraint) : List Uuid :=
  ((cs.filterMap (fun c => (compile_constraint c).toOption)).map CompiledConstraint.resource_ids).flatten

/-- Concrete Uuids for counterexamples and witnesses. -/
def uA : Uuid := ⟨1⟩

def uB : Uuid := ⟨2⟩

/-- A constraint restricting owner_tenant_id to uA. -/
def cCrossA : Constraint := ⟨[Predicate.eq ⟨"owner_tenant_id", uA⟩]⟩

/-- A constraint restricting id to uB. -/
def cCrossB : Constraint := ⟨[Predicate.eq ⟨"id", uB⟩]⟩

/-- A response with two compilable constraints over different properties. -/
def respCross : EvaluationResponse := ⟨true, [cCrossA, cCrossB]⟩

/-- A row owned by tenant uA whose id is not uB: it satisfies the first
PDP constraint but not the compiled scope. -/
def rowCross : Row := fun p => if p = "owner_tenant_id" then uA else ⟨99⟩

/-- The two-tenant OR response used as the witness input for the amended C1. -/
def respTwoTenants : EvaluationResponse :=
  ⟨true, [⟨[Predicate.inPred ⟨"owner_tenant_id", [uA]⟩]⟩,
          ⟨[Predicate.inPred ⟨"owner_tenant_id", [uB]⟩]⟩]⟩

/-- A constraint on owner_id: a property in the shared registry, outside the
compiler's built-in vocabulary. -/
def cOwnerId : Constraint := ⟨[Predicate.eq ⟨"owner_id", uA⟩]⟩

/-- A granting response whose only constraint is the owner_id constraint. -/
def respOwnerId : EvaluationResponse := ⟨true, [cOwnerId]⟩

/-- The registry of well-known property names (modkit-security properties),
the natural supported_properties set of a caller honouring owner_id. -/
def registryProps : List String := ["owner_tenant_id", "id", "owner_id"]

namespace Models

/-- Tenant context of the evaluation request (models.rs): the context
tenant being operated on. -/
structure TenantContext where
  root_id : Uuid
deriving DecidableEq

/-- The authenticated subject of an evaluation request (models.rs).
Properties are modelled as string pairs; the PDP reference service never
reads them. -/
structure Subject where
  id : Uuid
  tenant_id : Option Uuid
  subject_type : Option String
  properties : List (String × String)
deriving DecidableEq

/-- The action of an evaluation request (models.rs). -/
structure Action where
  name : String
deriving DecidableEq

/-- The resource of an evaluation request (models.rs). -/
structure Resource where
  resource_type : String
  id : Option Uuid
  require_constraints : Bool
deriving DecidableEq

/-- Additional evaluation context (models.rs). -/
structure Context where
  tenant : Option TenantContext
  token_scopes : List String
  properties : List (String × String)
deriving DecidableEq

/-- Authorization evaluation request (models.rs). -/
structure EvaluationRequest where
  subject : Subject
  action : Action
  resource : Resource
  context : Context
deriving DecidableEq

end Models

/-- The tenant the reference PDP scopes to: the context tenant root id,
falling back to the subject's tenant (service.rs). -/
def resolvedTenant (request : Models.EvaluationRequest) : Option Uuid :=
  match request.context.tenant with
  | some t => some t.root_id
  | none => request.subject.tenant_id

/-- Service::evaluate of the static authz plugin (service.rs): always grant;
when constraints are required, scope to the resolved tenant unless it is
missing or nil. -/
def Service.evaluate (request : Models.EvaluationRequest) : EvaluationResponse :=
  if request.resource.require_constraints = false then
    ⟨true, []⟩
  else
    let constraints :=
      match resolvedTenant request with
      | some tid =>
        if tid = Uuid.nil then []
        else [⟨[Predicate.inPred ⟨"owner_tenant_id", [tid]⟩]⟩]
      | none => []
    ⟨true, constraints⟩

/-- An anonymous constrained request: no tenant context and no subject
tenant anywhere. -/
def reqAnon : Models.EvaluationRequest :=
  ⟨⟨uA, none, none, []⟩, ⟨"list"⟩, ⟨"users_info.user", none, true⟩, ⟨none, [], []⟩⟩

/-- A constrained request with no tenant context whose subject lives in
tenant uA. -/
def reqFallback : Models.EvaluationRequest :=
  ⟨⟨uB, some uA, none, []⟩, ⟨"list"⟩, ⟨"users_info.user", none, true⟩, ⟨none, [], []⟩⟩

/-- An unconstrained (require_constraints=false) request carrying a non-nil
tenant context. -/
def reqRcFalse : Models.EvaluationRequest :=
  ⟨⟨uB, some uA, none, []⟩, ⟨"create"⟩, ⟨"users_info.user", none, false⟩,
    ⟨some ⟨uA⟩, [], []⟩⟩

/-- Shallow model of a sea_orm query Condition tree: conjunction and
disjunction nodes over items, a literal boolean expression, and a
column-IN-values expression. -/
inductive Cond (κ : Type) where
  | allOf : List (Cond κ) → Cond κ
  | anyOf : List (Cond κ) → Cond κ
  | value : Bool → Cond κ
  | isIn : κ → List Uuid → Cond κ

mutual

/-- Evaluate a condition on a row (a valuation of columns). -/
def Cond.evalB {κ : Type} (row : κ → Uuid) : Cond κ → Bool
  | .allOf l => Cond.evalAllB row l
  | .anyOf l => Cond.evalAnyB row l
  | .value b => b
  | .isIn col vs => uuidMem (row col) vs

/-- Conjunction of a list of conditions. -/
def Cond.evalAllB {κ : Type} (row : κ → Uuid) : List (Cond κ) → Bool
  | [] => true
  | c :: cs => Cond.evalB row c && Cond.evalAllB row cs

/-- Disjunction of a list of conditions. -/
def Cond.evalAnyB {κ : Type} (row : κ → Uuid) : List (Cond κ) → Bool
  | [] => false
  | c :: cs => Cond.evalB row c || Cond.evalAnyB row cs

end

namespace Secure

/-- deny_all of cond.rs: Condition::all() with the literal false added. -/
def deny_all {κ : Type} : Cond κ := .allOf [.value false]

/-- The filter loop of build_constraint_condition: resolve each filter
property and append its IN expression; fail on the first unknown property. -/
def buildFilters {κ : Type} (resolve : String → Option κ) (acc : List (Cond κ)) :
    List ScopeFilter → Option (List (Cond κ))
  | [] => some acc
  | f :: rest =>
    match resolve f.property with
    | none => none
    | some col =>
      match f.op with
      | FilterOp.In => buildFilters resolve (acc ++ [Cond.isIn col f.values]) rest

/-- build_constraint_condition of cond.rs: the AND of the per-filter
conditions, or none when some filter property does not resolve; an empty
constraint yields the empty (always-true) conjunction. -/
def build_constraint_condition {κ : Type} (resolve : String → Option κ)
    (c : ScopeConstraint) : Option (Cond κ) :=
  if c.is_empty then some (.allOf [])
  else (buildFilters resolve [] c.filters).map Cond.allOf

/-- build_scope_condition of cond.rs. -/
def build_scope_condition {κ : Type} (resolve : String → Option κ)
    (scope : AccessScope) : Cond κ :=
  if scope.is_unconstrained then .allOf []
  else if scope.is_deny_all then deny_all
  else
    let compiled := scope.constraints.filterMap (build_constraint_condition resolve)
    match compiled with
    | [] => deny_all
    | [c] => c
    | cs => .anyOf cs

/-- Every filter property of the constraint resolves to a column. -/
def resolvableB {κ : Type} (resolve : String → Option κ) (c : ScopeConstraint) : Bool :=
  c.filters.all (fun f => (resolve f.property).isSome)

/-- Translator-level satisfaction of one filter: the row's value in the
resolved column is among the filter values; unresolvable filters reject. -/
def filterSatT {κ : Type} (resolve : String → Option κ) (row : κ → Uuid)
    (f : ScopeFilter) : Bool :=
  match resolve f.property with
  | some col =>
    match f.op with
    | FilterOp.In => uuidMem (row col) f.values
  | none => false

/-- Translator-level satisfaction of a constraint: all filters match. -/
def constraintSatT {κ : Type} (resolve : String → Option κ) (row : κ → Uuid)
    (c : ScopeConstraint) : Bool :=
  c.filters.all (filterSatT resolve row)

end Secure

/-- A column-resolution map for a two-column entity: owner_tenant_id and id
resolve, everything else is unknown. -/
def resolveW : String → Option Nat :=
  fun p => if p = "owner_tenant_id" then some 0 else if p = "id" then some 1 else none

/-- A scope with one resolvable constraint and one constraint on an unknown
property. -/
def scopeW : AccessScope :=
  AccessScope.from_constraints
    [⟨[⟨"owner_tenant_id", FilterOp.In, [uA]⟩]⟩, ⟨[⟨"weird", FilterOp.In, [uB]⟩]⟩]

/-- A row of the two-column entity owned by tenant uA. -/
def rowW : Nat → Uuid := fun n => if n = 0 then uA else ⟨77⟩

/-- No filter anywhere in the scope has an empty values vector. -/
def noEmptyFilter (s : AccessScope) : Bool :=
  s.constraints.all (fun c => c.filters.all (fun f => !f.values.isEmpty))

namespace Pep

/-- Tenant hierarchy mode of an evaluation (enforcer.rs models). -/
inductive TenantMode where
  | Subtree
  | RootOnly
deriving DecidableEq

/-- Barrier enforcement mode of an evaluation (enforcer.rs models). -/
inductive BarrierMode where
  | Respect
  | Ignore
deriving DecidableEq

/-- A PEP capability advertised to the PDP; opaque here. -/
def Capability : Type := String

/-- Modelled from the spec: the enforcer-side TenantContext (an optional
root id plus mode, barrier mode and status filter, all defaulting) is
declared in the models module whose newer revision is not among the
provided sources; fields follow the spec and every enforcer.rs use site. -/
structure TenantContext where
  root_id : Option Uuid
  mode : TenantMode
  barrier_mode : BarrierMode
  tenant_status : Option (List String)
deriving DecidableEq

/-- TenantContext::default: no root, Subtree, Respect, no status filter. -/
def TenantContext.default : TenantContext :=
  ⟨none, TenantMode.Subtree, BarrierMode.Respect, none⟩

/-- Modelled from the spec: the bearer-token wrapper (secrecy::SecretString)
whose debug formatting emits a fixed placeholder and never the content. -/
structure SecretString where
  val : String

/-- The fixed placeholder the secret wrapper renders; independent of the
wrapped value. -/
def SecretString.debugRender : SecretString → String :=
  fun _ => "SecretString([REDACTED])"

/-- The enforcer-side subject: the tenant travels in properties. -/
structure Subject where
  id : Uuid
  subject_type : Option String
  properties : List (String × String)

/-- The enforcer-side action. -/
structure Action where
  name : String

/-- The enforcer-side resource. -/
structure Resource where
  resource_type : String
  id : Option Uuid
  properties : List (String × String)

/-- The enforcer-side evaluation context (enforcer.rs): tenant context,
scopes, the require_constraints flag, capabilities, the caller-supported
properties, the redacted bearer token and extra properties. -/
structure Context where
  tenant_context : Option TenantContext
  token_scopes : List String
  require_constraints : Bool
  capabilities : List Capability
  supported_properties : List String
  bearer_token : Option SecretString
  properties : List (String × String)

/-- The enforcer-side evaluation request. -/
structure EvaluationRequest where
  subject : Subject
  action : Action
  resource : Resource
  context : Context

end Pep

/-- Modelled from the spec: SecurityContext (crate modkit-security) is not
among the provided sources; fields follow the spec: subject id, optional
subject tenant, optional subject type, token scopes, optional opaque bearer
token. -/
structure SecurityContext where
  subject_id : Uuid
  subject_tenant_id : Option Uuid
  subject_type : Option String
  token_scopes : List String
  bearer_token : Option String

/-- Static descriptor of a resource type (enforcer.rs). -/
structure ResourceType where
  name : String
  supported_properties : List String

/-- Per-request evaluation overrides (enforcer.rs). -/
structure AccessRequest where
  resource_properties : List (String × String)
  tenant_context : Option Pep.TenantContext

/-- AccessRequest::default: nothing overridden. -/
def AccessRequest.default : AccessRequest :=
  ⟨[], none⟩

/-- Decimal rendering of the Uuid model for property values. -/
def Uuid.render (u : Uuid) : String :=
  toString u.val

/-- PolicyEnforcer::build_request_with (enforcer.rs); the enforcer state it
reads is its capabilities list, passed here as the first argument. Resolves
the root id as override, then subject tenant, dropping nil; merges overrides
into the tenant context; publishes the subject tenant as a property; wraps
the bearer token in the redacting secret type. -/
def build_request_with (capabilities : List Pep.Capability) (ctx : SecurityContext)
    (resource : ResourceType) (action : String) (resource_id : Option Uuid)
    (require_constraints : Bool) (request : AccessRequest) : Pep.EvaluationRequest :=
  let overridden : Option Uuid :=
    match request.tenant_context with
    | some tc => tc.root_id
    | none => none
  let chosen : Option Uuid :=
    match overridden with
    | some id => some id
    | none => ctx.subject_tenant_id
  let resolved_root_id : Option Uuid :=
    match chosen with
    | some id => if id = Uuid.nil then none else some id
    | none => none
  let tenant_context : Option Pep.TenantContext :=
    resolved_root_id.map (fun root_id =>
      let base :=
        match request.tenant_context with
        | some tc => tc
        | none => Pep.TenantContext.default
      { base with root_id := some root_id })
  let subject_properties : List (String × String) :=
    match ctx.subject_tenant_id with
    | some tid => [("tenant_id", tid.render)]
    | none => []
  let bearer_token : Option Pep.SecretString :=
    ctx.bearer_token.map (fun t => ⟨t⟩)
  ⟨⟨ctx.subject_id, ctx.subject_type, subject_properties⟩,
   ⟨action⟩,
   ⟨resource.name, resource_id, request.resource_properties⟩,
   ⟨tenant_context, ctx.token_scopes, require_constraints, capabilities,
    resource.supported_properties, bearer_token, []⟩⟩

/-- Rendering of an optional value. -/
def renderOpt {α : Type} (f : α → String) : Option α → String
  | some a => "Some(" ++ f a ++ ")"
  | none => "None"

/-- Rendering of a string list. -/
def renderStrList (l : List String) : String :=
  "[" ++ String.intercalate ", " l ++ "]"

/-- Rendering of a property map as a list of key-value entries. -/
def renderProps (l : List (String × String)) : String :=
  "[" ++ String.intercalate ", " (l.map (fun p => p.1 ++ ": " ++ p.2)) ++ "]"

namespace Pep

/-- Rendering of the tenant mode. -/
def TenantMode.debugRender : TenantMode → String
  | .Subtree => "Subtree"
  | .RootOnly => "RootOnly"

/-- Rendering of the barrier mode. -/
def BarrierMode.debugRender : BarrierMode → String
  | .Respect => "Respect"
  | .Ignore => "Ignore"

/-- Rendering of a tenant context. -/
def TenantContext.debugRender (tc : TenantContext) : String :=
  "TenantContext(root_id: " ++ renderOpt Uuid.render tc.root_id
    ++ ", mode: " ++ tc.mode.debugRender
    ++ ", barrier_mode: " ++ tc.barrier_mode.debugRender
    ++ ", tenant_status: " ++ renderOpt renderStrList tc.tenant_status ++ ")"

/-- Rendering of a subject. -/
def Subject.debugRender (s : Subject) : String :=
  "Subject(id: " ++ s.id.render ++ ", subject_type: " ++ renderOpt (fun x => x) s.subject_type
    ++ ", properties: " ++ renderProps s.properties ++ ")"

/-- Rendering of an action. -/
def Action.debugRender (a : Action) : String :=
  "Action(name: " ++ a.name ++ ")"

/-- Rendering of a resource. -/
def Resource.debugRender (r : Resource) : String :=
  "Resource(resource_type: " ++ r.resource_type ++ ", id: " ++ renderOpt Uuid.render r.id
    ++ ", properties: " ++ renderProps r.properties ++ ")"

/-- Rendering of the context: the bearer token field renders through the
redacting wrapper only. -/
def Context.debugRender (c : Context) : String :=
  "Context(tenant_context: " ++ renderOpt TenantContext.debugRender c.tenant_context
    ++ ", token_scopes: " ++ renderStrList c.token_scopes
    ++ ", require_constraints: " ++ (if c.require_constraints then "true" else "false")
    ++ ", capabilities: " ++ renderStrList c.capabilities
    ++ ", supported_properties: " ++ renderStrList c.supported_properties
    ++ ", bearer_token: " ++ renderOpt SecretString.debugRender c.bearer_token
    ++ ", properties: " ++ renderProps c.properties ++ ")"

/-- Modelled from the spec: the derived Debug rendering of a built request;
the spec requires the bearer token field to render as a fixed placeholder,
which Context.debugRender realises through SecretString.debugRender. -/
def EvaluationRequest.debugRender (r : EvaluationRequest) : String :=
  "EvaluationRequest(subject: " ++ r.subject.debugRender
    ++ ", action: " ++ r.action.debugRender
    ++ ", resource: " ++ r.resource.debugRender
    ++ ", context: " ++ r.context.debugRender ++ ")"

end Pep

/-- Whether the first character list is a prefix of the second. -/
def listStarts : List Char → List Char → Bool
  | [], _ => true
  | _ :: _, [] => false
  | a :: as, b :: bs => decide (a = b) && listStarts as bs

/-- Whether the first character list occurs inside the second. -/
def listOccurs (n : List Char) : List Char → Bool
  | [] => n.isEmpty
  | b :: bs => listStarts n (b :: bs) || listOccurs n bs

/-- Whether the string n occurs as a substring of h. -/
def strOccurs (n h : String) : Bool :=
  listOccurs n.data h.data

/-- The users resource descriptor used in examples. -/
def resourceUser : ResourceType := ⟨"users_info.user", ["owner_tenant_id", "id"]⟩

/-- A context whose bearer token coincides with the action name. -/
def ctxLeak : SecurityContext := ⟨uA, some uB, none, [], some "get"⟩

/-- A context identical to ctxLeak except for its bearer token. -/
def ctxLeak2 : SecurityContext := ⟨uA, some uB, none, [], some "tokenx"⟩

theorem foldl_compileConstraintStep (ps : List Predicate) (t r : List Uuid) (u : Bool) :
    ps.foldl compileConstraintStep (t, r, u) =
      (t ++ (ps.map predTenant).flatten, r ++ (ps.map predResource).flatten,
        u || ps.any (fun p => !builtinSupportedB p.property)) := by
  induction ps generalizing t r u with
  | nil => simp
  | cons p ps ih =>
    cases p with
    | eq e =>
      by_cases h1 : e.property = "owner_tenant_id"
      · simp [compileConstraintStep, h1, ih, predTenant, predResource,
          builtinSupportedB, Predicate.property]
      · by_cases h2 : e.property = "id"
        · simp [compileConstraintStep, h1, h2, ih, predTenant, predResource,
            builtinSupportedB, Predicate.property]
        · simp [compileConstraintStep, h1, h2, ih, predTenant, predResource,
            builtinSupportedB, Predicate.property]
    | inPred i =>
      by_cases h1 : i.property = "owner_tenant_id"
      · simp [compileConstraintStep, h1, ih, predTenant, predResource,
          builtinSupportedB, Predicate.property]
      · by_cases h2 : i.property = "id"
        · simp [compileConstraintStep, h1, h2, ih, predTenant, predResource,
            builtinSupportedB, Predicate.property]
        · simp [compileConstraintStep, h1, h2, ih, predTenant, predResource,
            builtinSupportedB, Predicate.property]

theorem compile_constraint_eq (c : Constraint) :
    compile_constraint c =
      if constraintFailsB c then .error unsupportedMsg
      else .ok ⟨tenantContrib c, resourceContrib c⟩ := by
  unfold compile_constraint
  rw [foldl_compileConstraintStep]
  simp [constraintFailsB, tenantContrib, resourceContrib]

theorem any_not_fails_eq (cs : List Constraint) :
    cs.any (fun c => !constraintFailsB c) = !cs.all constraintFailsB := by
  induction cs with
  | nil => simp
  | cons c cs ih => simp [ih, Bool.not_and]

theorem foldl_step4 (cs : List Constraint) (st : Step4State) :
    cs.foldl step4 st =
      ⟨st.tenant_ids ++ mergedTenants cs, st.resource_ids ++ mergedResources cs,
        st.any_compiled || cs.any (fun c => !constraintFailsB c),
        st.fail_reasons ++ failedReasons cs⟩ := by
  induction cs generalizing st with
  | nil => simp [mergedTenants, mergedResources, failedReasons]
  | cons c cs ih =>
    by_cases h : constraintFailsB c
    · simp [step4, compile_constraint_eq, h, ih, mergedTenants, mergedResources, failedReasons,
        List.filterMap_cons, Except.toOption]
    · simp [step4, compile_constraint_eq, h, ih, mergedTenants, mergedResources, failedReasons,
        tenantContrib, resourceContrib, List.filterMap_cons, Except.toOption]

theorem failedReasons_of_all_failed (cs : List Constraint)
    (h : cs.all constraintFailsB = true) :
    failedReasons cs = cs.map (fun _ => unsupportedMsg) := by
  induction cs with
  | nil => simp [failedReasons]
  | cons c cs ih =>
    rw [List.all_cons, Bool.and_eq_true] at h
    have ih2 := ih h.2
    simp only [failedReasons, List.filterMap_cons, compile_constraint_eq, h.1, if_true,
      List.map_cons] at ih2 ⊢
    simp [ih2]

theorem compile_char (resp : EvaluationResponse) (h1 : resp.decision = true)
    (h2 : resp.constraints ≠ []) :
    compile_to_access_scope resp true =
      if resp.constraints.all constraintFailsB then
        .error (ConstraintCompileError.AllConstraintsFailed
          (String.intercalate "; " (failedReasons resp.constraints)))
      else if (mergedTenants resp.constraints).isEmpty &&
          (mergedResources resp.constraints).isEmpty then
        .ok AccessScope.allow_all
      else
        .ok (AccessScope.both (mergedTenants resp.constraints) (mergedResources resp.constraints)) := by
  unfold compile_to_access_scope
  rw [foldl_step4]
  simp [h1, h2, any_not_fails_eq]

theorem uuidMem_flatten (x : Uuid) (ls : List (List Uuid)) :
    uuidMem x ls.flatten = ls.any (fun l => uuidMem x l) := by
  induction ls with
  | nil => simp [uuidMem]
  | cons l ls ih => simp [uuidMem, List.any_append] at ih ⊢

theorem list_any_congr {α : Type} (l : List α) (f g : α → Bool)
    (h : ∀ x ∈ l, f x = g x) : l.any f = l.any g := by
  induction l with
  | nil => simp
  | cons a l ih =>
    simp [List.any_cons, h a (by simp), ih (fun x hx => h x (by simp [hx]))]

theorem merged_of_none_failed (cs : List Constraint)
    (h : ∀ c ∈ cs, constraintFailsB c = false) :
    mergedTenants cs = (cs.map tenantContrib).flatten ∧
      mergedResources cs = (cs.map resourceContrib).flatten := by
  induction cs with
  | nil => simp [mergedTenants, mergedResources]
  | cons c cs ih =>
    have hc := h c (by simp)
    have ih2 := ih (fun x hx => h x (by simp [hx]))
    simp [mergedTenants, mergedResources, List.filterMap_cons, compile_constraint_eq, hc,
      Except.toOption] at ih2 ⊢
    simp [ih2.1, ih2.2]

/-- Claim C3: the compiler decision matrix. decision=false yields Denied
regardless of the other inputs; decision=true with require_constraints=false
yields allow_all regardless of constraints; decision=true with
require_constraints=true and empty constraints yields allow_all. -/
theorem compile_decision_matrix (response : EvaluationResponse) (rc : Bool) :
    (response.decision = false →
      compile_to_access_scope response rc = .error ConstraintCompileError.Denied) ∧
    (response.decision = true → rc = false →
      compile_to_access_scope response rc = .ok AccessScope.allow_all) ∧
    (response.decision = true → rc = true → response.constraints = [] →
      compile_to_access_scope response rc = .ok AccessScope.allow_all) := by
  refine ⟨fun hd => ?_, fun hd hrc => ?_, fun hd hrc hc => ?_⟩
  · simp [compile_to_access_scope, hd]
  · simp [compile_to_access_scope, hd, hrc]
  · simp [compile_to_access_scope, hd, hrc, hc]

/-- Witness for compile_decision_matrix at concrete responses. -/
theorem compile_decision_matrix_witness :
    compile_to_access_scope ⟨false, []⟩ true = .error ConstraintCompileError.Denied ∧
    compile_to_access_scope ⟨true, [⟨[]⟩]⟩ false = .ok AccessScope.allow_all ∧
    compile_to_access_scope ⟨true, []⟩ true = .ok AccessScope.allow_all :=
  ⟨(compile_decision_matrix ⟨false, []⟩ true).1 rfl,
   (compile_decision_matrix ⟨true, [⟨[]⟩]⟩ false).2.1 rfl rfl,
   (compile_decision_matrix ⟨true, []⟩ true).2.2 rfl rfl rfl⟩

theorem all_fails_false_of_ex (cs : List Constraint)
    (hex : ∃ c ∈ cs, constraintFailsB c = false) :
    cs.all constraintFailsB = false := by
  obtain ⟨c, hc, hfc⟩ := hex
  cases hall : cs.all constraintFailsB with
  | false => rfl
  | true => exact absurd (List.all_eq_true.mp hall c hc) (by simp [hfc])

/-- Claim C1 is false on the code: for the response with the two surviving
constraints (owner_tenant_id = uA) and (id = uB), compile_to_access_scope
returns a single-constraint merged scope, not one ScopeConstraint per
surviving constraint, and a row satisfying the first surviving constraint
does not satisfy the compiled scope, so the satisfaction equivalence of the
claim fails. -/
theorem compile_does_not_preserve_constraint_structure :
    compile_to_access_scope respCross true = .ok (AccessScope.both [uA] [uB]) ∧
    respCross.constraints.all (fun c => !constraintFailsB c) = true ∧
    respCross.constraints.length = 2 ∧
    (AccessScope.both [uA] [uB]).constraints.length = 1 ∧
    cCrossA ∈ respCross.constraints ∧
    Constraint.satB rowCross cCrossA = true ∧
    AccessScope.satB (AccessScope.both [uA] [uB]) rowCross = false :=
  ⟨rfl, by decide, rfl, rfl, by decide, by decide, by decide⟩

/-- Claim C1 (amended): with decision=true, require_constraints=true and at
least one constraint compiling successfully, the compiler merges the tenant
and resource IDs of all surviving constraints into a single scope built by
AccessScope::both (allow-all when both merged lists are empty); the
per-constraint OR structure is preserved only in special shapes, e.g. when
every constraint is a single non-empty In predicate on owner_tenant_id, in
which case a row satisfies the compiled scope iff it satisfies at least one
PDP constraint. -/
theorem compile_merges_constraints (resp : EvaluationResponse)
    (hd : resp.decision = true) (hne : resp.constraints ≠ []) :
    ((∃ c ∈ resp.constraints, constraintFailsB c = false) →
      compile_to_access_scope resp true =
        .ok (if (mergedTenants resp.constraints).isEmpty &&
              (mergedResources resp.constraints).isEmpty then AccessScope.allow_all
             else AccessScope.both (mergedTenants resp.constraints)
               (mergedResources resp.constraints))) ∧
    ((∀ c ∈ resp.constraints, ∃ vs, vs ≠ [] ∧
        c.predicates = [Predicate.inPred ⟨"owner_tenant_id", vs⟩]) →
      ∃ scope, compile_to_access_scope resp true = .ok scope ∧
        ∀ row : Row, scope.satB row = resp.constraints.any (Constraint.satB row)) := by
  constructor
  · intro hex
    rw [compile_char resp hd hne, all_fails_false_of_ex _ hex]
    by_cases hm : ((mergedTenants resp.constraints).isEmpty &&
      (mergedResources resp.constraints).isEmpty) = true <;> simp [hm]
  · intro hshape
    have hnf : ∀ c ∈ resp.constraints, constraintFailsB c = false := by
      intro c hc
      obtain ⟨vs, hvs, hps⟩ := hshape c hc
      simp [constraintFailsB, hps, builtinSupportedB, Predicate.property]
    obtain ⟨hmt, hmr⟩ := merged_of_none_failed resp.constraints hnf
    have hmr0 : mergedResources resp.constraints = [] := by
      rw [hmr]
      rw [List.flatten_eq_nil_iff]
      intro l hl
      rw [List.mem_map] at hl
      obtain ⟨c, hc, hcl⟩ := hl
      obtain ⟨vs, hvs, hps⟩ := hshape c hc
      rw [← hcl]
      simp [resourceContrib, hps, predResource]
    have hmtne : mergedTenants resp.constraints ≠ [] := by
      rw [hmt]
      cases hcs : resp.constraints with
      | nil => exact absurd hcs hne
      | cons c cs =>
        obtain ⟨vs, hvs, hps⟩ := hshape c (by rw [hcs]; simp)
        have htc : tenantContrib c = vs := by simp [tenantContrib, hps, predTenant]
        simp only [List.map_cons, List.flatten_cons, htc]
        intro hcontra
        exact hvs (List.append_eq_nil.mp hcontra).1
    have hex : ∃ c ∈ resp.constraints, constraintFailsB c = false := by
      obtain ⟨c, hc⟩ := List.exists_mem_of_ne_nil resp.constraints hne
      exact ⟨c, hc, hnf c hc⟩
    refine ⟨AccessScope.both (mergedTenants resp.constraints) [], ?_, ?_⟩
    · rw [compile_char resp hd hne, all_fails_false_of_ex _ hex]
      have h1 : (mergedTenants resp.constraints).isEmpty = false := by
        cases h : mergedTenants resp.constraints with
        | nil => exact absurd h hmtne
        | cons a l => rfl
      simp [h1, hmr0]
    · intro row
      have h1 : (mergedTenants resp.constraints).isEmpty = false := by
        cases h : mergedTenants resp.constraints with
        | nil => exact absurd h hmtne
        | cons a l => rfl
      have hboth : AccessScope.both (mergedTenants resp.constraints) [] =
          AccessScope.single (ScopeConstraint.new
            [ScopeFilter.new "owner_tenant_id" FilterOp.In (mergedTenants resp.constraints)]) := by
        simp [AccessScope.both, AccessScope.for_tenants_and_resources, h1]
      rw [hboth]
      have hsat : (AccessScope.single (ScopeConstraint.new
          [ScopeFilter.new "owner_tenant_id" FilterOp.In (mergedTenants resp.constraints)])).satB row
          = uuidMem (row "owner_tenant_id") (mergedTenants resp.constraints) := by
        simp [AccessScope.single, AccessScope.from_constraints, AccessScope.satB,
          ScopeConstraint.satB, ScopeFilter.satB, ScopeConstraint.new, ScopeFilter.new]
      rw [hsat, hmt, uuidMem_flatten]
      have hmap : ((List.map tenantContrib resp.constraints).any
          fun l => uuidMem (row "owner_tenant_id") l) =
          resp.constraints.any fun c => uuidMem (row "owner_tenant_id") (tenantContrib c) := by
        induction resp.constraints with
        | nil => rfl
        | cons c cs ih => simp [List.any_cons, ih]
      rw [hmap]
      apply list_any_congr
      intro c hc
      obtain ⟨vs, hvs, hps⟩ := hshape c hc
      simp [Function.comp, tenantContrib, hps, predTenant, Constraint.satB, Predicate.satB]

/-- Witness for compile_merges_constraints at the two-tenant OR response. -/
theorem compile_merges_constraints_witness :
    compile_to_access_scope respTwoTenants true =
      .ok (if (mergedTenants respTwoTenants.constraints).isEmpty &&
            (mergedResources respTwoTenants.constraints).isEmpty then AccessScope.allow_all
           else AccessScope.both (mergedTenants respTwoTenants.constraints)
             (mergedResources respTwoTenants.constraints)) ∧
    (∃ scope, compile_to_access_scope respTwoTenants true = .ok scope ∧
      ∀ row : Row, scope.satB row = respTwoTenants.constraints.any (Constraint.satB row)) :=
  ⟨(compile_merges_constraints respTwoTenants rfl (by decide)).1
      ⟨⟨[Predicate.inPred ⟨"owner_tenant_id", [uA]⟩]⟩, by decide, by decide⟩,
   (compile_merges_constraints respTwoTenants rfl (by decide)).2
      (by
        intro c hc
        simp [respTwoTenants] at hc
        cases hc with
        | inl h => exact ⟨[uA], by decide, by rw [h]⟩
        | inr h => exact ⟨[uB], by decide, by rw [h]⟩)⟩

/-- Claim C2 is false on the code: compilation is not parameterized by the
caller's supported_properties. The owner_id constraint has every predicate
on a property of the caller-supported registry, yet the compiler drops it
and, it being the only constraint, returns AllConstraintsFailed. -/
theorem compile_ignores_supported_properties :
    cOwnerId.predicates.all (fun p => decide (p.property ∈ registryProps)) = true ∧
    compile_to_access_scope respOwnerId true =
      .error (ConstraintCompileError.AllConstraintsFailed unsupportedMsg) :=
  ⟨by decide, rfl⟩

/-- Claim C2 (amended): compilation uses the fixed built-in property set
containing owner_tenant_id and id, regardless of the caller's
supported_properties: a constraint is dropped iff it has at least one
predicate outside that set, and when every constraint is dropped the
compiler returns AllConstraintsFailed whose reason joins the per-constraint
failure reasons. -/
theorem compile_uses_builtin_properties (resp : EvaluationResponse)
    (hd : resp.decision = true) (hne : resp.constraints ≠ []) :
    (∀ c ∈ resp.constraints,
      ((∃ p ∈ c.predicates, builtinSupportedB p.property = false) ↔
        compile_constraint c = .error unsupportedMsg)) ∧
    ((∀ c ∈ resp.constraints, ∃ p ∈ c.predicates, builtinSupportedB p.property = false) →
      compile_to_access_scope resp true =
        .error (ConstraintCompileError.AllConstraintsFailed
          (String.intercalate "; " (resp.constraints.map fun _ => unsupportedMsg)))) := by
  have hiff : ∀ c : Constraint,
      ((∃ p ∈ c.predicates, builtinSupportedB p.property = false) ↔
        compile_constraint c = .error unsupportedMsg) := by
    intro c
    rw [compile_constraint_eq]
    constructor
    · intro ⟨p, hp, hsup⟩
      have : constraintFailsB c = true := by
        rw [constraintFailsB, List.any_eq_true]
        exact ⟨p, hp, by simp [hsup]⟩
      simp [this]
    · intro h
      by_cases hf : constraintFailsB c
      · rw [constraintFailsB, List.any_eq_true] at hf
        obtain ⟨p, hp, hsup⟩ := hf
        exact ⟨p, hp, by simpa using hsup⟩
      · simp [hf] at h
  refine ⟨fun c _ => hiff c, fun h => ?_⟩
  have hall : resp.constraints.all constraintFailsB = true := by
    rw [List.all_eq_true]
    intro c hc
    obtain ⟨p, hp, hsup⟩ := h c hc
    rw [constraintFailsB, List.any_eq_true]
    exact ⟨p, hp, by simp [hsup]⟩
  rw [compile_char resp hd hne, hall]
  simp [failedReasons_of_all_failed resp.constraints hall]

/-- Witness for compile_uses_builtin_properties at the owner_id response. -/
theorem compile_uses_builtin_properties_witness :
    compile_constraint cOwnerId = .error unsupportedMsg ∧
    compile_to_access_scope respOwnerId true =
      .error (ConstraintCompileError.AllConstraintsFailed
        (String.intercalate "; " (respOwnerId.constraints.map fun _ => unsupportedMsg))) :=
  ⟨((compile_uses_builtin_properties respOwnerId rfl (by decide)).1 cOwnerId (by decide)).mp
      ⟨Predicate.eq ⟨"owner_id", uA⟩, by decide, by decide⟩,
   (compile_uses_builtin_properties respOwnerId rfl (by decide)).2
      (fun c hc => by
        simp [respOwnerId] at hc
        exact ⟨Predicate.eq ⟨"owner_id", uA⟩, by rw [hc]; decide, by decide⟩)⟩

theorem merged_nil_of_all_empty (cs : List Constraint)
    (h : ∀ c ∈ cs, compile_constraint c = .ok ⟨[], []⟩) :
    mergedTenants cs = [] ∧ mergedResources cs = [] := by
  induction cs with
  | nil => simp [mergedTenants, mergedResources]
  | cons c cs ih =>
    have hc := h c (by simp)
    have ih2 := ih (fun x hx => h x (by simp [hx]))
    simp [mergedTenants, mergedResources, List.filterMap_cons, hc, Except.toOption] at ih2 ⊢
    exact ih2

/-- Claim C10: when decision=true, require_constraints=true, the constraint
list is non-empty and every constraint compiles successfully while
contributing no tenant and no resource IDs, the compiler returns
Ok(allow_all) — unrestricted access. -/
theorem compile_empty_contributions_allow_all (resp : EvaluationResponse)
    (hd : resp.decision = true) (hne : resp.constraints ≠ [])
    (h : ∀ c ∈ resp.constraints, compile_constraint c = .ok ⟨[], []⟩) :
    compile_to_access_scope resp true = .ok AccessScope.allow_all := by
  have hex : ∃ c ∈ resp.constraints, constraintFailsB c = false := by
    obtain ⟨c, hc⟩ := List.exists_mem_of_ne_nil resp.constraints hne
    refine ⟨c, hc, ?_⟩
    have hcc := h c hc
    rw [compile_constraint_eq] at hcc
    by_cases hf : constraintFailsB c
    · simp [hf] at hcc
    · simpa using hf
  obtain ⟨hmt, hmr⟩ := merged_nil_of_all_empty resp.constraints h
  rw [compile_char resp hd hne, all_fails_false_of_ex _ hex]
  simp [hmt, hmr]

/-- Witness for compile_empty_contributions_allow_all: one granting
response with a single constraint having an empty predicate list. -/
theorem compile_empty_contributions_allow_all_witness :
    compile_to_access_scope ⟨true, [⟨[]⟩]⟩ true = .ok AccessScope.allow_all :=
  compile_empty_contributions_allow_all ⟨true, [⟨[]⟩]⟩ rfl (by decide)
    (fun c hc => by simp at hc; rw [hc]; rfl)

/-- Claim C4 is false on the code: the anonymous constrained request makes
the reference PDP emit no constraints, and the compiler maps the empty
constraint list to Ok(allow_all) — an unconstrained grant, not
Err(AllConstraintsFailed). -/
theorem anonymous_caller_gets_allow_all :
    reqAnon.context.tenant = none ∧
    reqAnon.subject.tenant_id = none ∧
    reqAnon.resource.require_constraints = true ∧
    compile_to_access_scope (Service.evaluate reqAnon) true = .ok AccessScope.allow_all ∧
    AccessScope.allow_all.is_unconstrained = true :=
  ⟨rfl, rfl, rfl, rfl, rfl⟩

/-- Claim C4 (amended): composing the reference PDP with the compiler,
every constrained request from an anonymous caller (no tenant context and
no subject tenant) yields Ok(allow_all): the PDP emits no constraints and
the compiler treats an empty constraint list as unrestricted; the caller
never receives AllConstraintsFailed. -/
theorem anonymous_caller_allow_all (request : Models.EvaluationRequest)
    (hrc : request.resource.require_constraints = true)
    (ht : request.context.tenant = none)
    (hs : request.subject.tenant_id = none) :
    compile_to_access_scope (Service.evaluate request) true = .ok AccessScope.allow_all := by
  have hev : Service.evaluate request = ⟨true, []⟩ := by
    simp [Service.evaluate, hrc, resolvedTenant, ht, hs]
  rw [hev]
  simp [compile_to_access_scope]

/-- Witness for anonymous_caller_allow_all at the anonymous request. -/
theorem anonymous_caller_allow_all_witness :
    compile_to_access_scope (Service.evaluate reqAnon) true = .ok AccessScope.allow_all :=
  anonymous_caller_allow_all reqAnon rfl rfl rfl

/-- Claim C5 is false on the code: the reference PDP emits the single
owner_tenant_id constraint for a request that carries no tenant_context at
all (falling back to the subject's tenant), and emits no constraint for a
request that carries a non-nil tenant_context but does not require
constraints; so the emission happens beyond the exact condition claimed. -/
theorem service_emits_beyond_tenant_context :
    reqFallback.context.tenant = none ∧
    (Service.evaluate reqFallback).constraints =
      [⟨[Predicate.inPred ⟨"owner_tenant_id", [uA]⟩]⟩] ∧
    reqRcFalse.context.tenant = some ⟨uA⟩ ∧
    uA ≠ Uuid.nil ∧
    (Service.evaluate reqRcFalse).constraints = [] :=
  ⟨rfl, rfl, rfl, by decide, rfl⟩

/-- Claim C5 (amended): the reference PDP always returns decision=true;
when require_constraints=true it emits exactly the single constraint
In(owner_tenant_id, [tid]) iff the resolved tenant (context tenant root id,
else the subject tenant) is a non-nil tid, and it emits no constraints
otherwise (resolved tenant missing or nil, or constraints not required). -/
theorem service_evaluate_characterization (request : Models.EvaluationRequest) :
    (Service.evaluate request).decision = true ∧
    (∀ tid, request.resource.require_constraints = true →
      resolvedTenant request = some tid → tid ≠ Uuid.nil →
      (Service.evaluate request).constraints =
        [⟨[Predicate.inPred ⟨"owner_tenant_id", [tid]⟩]⟩]) ∧
    ((request.resource.require_constraints = false ∨ resolvedTenant request = none ∨
        resolvedTenant request = some Uuid.nil) →
      (Service.evaluate request).constraints = []) := by
  refine ⟨?_, ?_, ?_⟩
  · by_cases h : request.resource.require_constraints = false <;> simp [Service.evaluate, h]
  · intro tid hrc hres hnil
    simp [Service.evaluate, hrc, hres, hnil]
  · intro h
    rcases h with h | h | h
    · simp [Service.evaluate, h]
    · by_cases hrc : request.resource.require_constraints = false <;>
        simp [Service.evaluate, hrc, h]
    · by_cases hrc : request.resource.require_constraints = false <;>
        simp [Service.evaluate, hrc, h]

/-- Witness for service_evaluate_characterization: the fallback request
triggers the emission clause, the unconstrained request the empty clause. -/
theorem service_evaluate_characterization_witness :
    (Service.evaluate reqFallback).decision = true ∧
    (Service.evaluate reqFallback).constraints =
      [⟨[Predicate.inPred ⟨"owner_tenant_id", [uA]⟩]⟩] ∧
    (Service.evaluate reqRcFalse).constraints = [] :=
  ⟨(service_evaluate_characterization reqFallback).1,
   (service_evaluate_characterization reqFallback).2.1 uA rfl rfl (by decide),
   (service_evaluate_characterization reqRcFalse).2.2 (Or.inl rfl)⟩

namespace Secure

theorem evalAllB_append {κ : Type} (row : κ → Uuid) (l1 l2 : List (Cond κ)) :
    Cond.evalAllB row (l1 ++ l2) = (Cond.evalAllB row l1 && Cond.evalAllB row l2) := by
  induction l1 with
  | nil => simp [Cond.evalAllB]
  | cons c l ih => simp [Cond.evalAllB, ih, Bool.and_assoc]

theorem evalAnyB_eq_any {κ : Type} (row : κ → Uuid) (l : List (Cond κ)) :
    Cond.evalAnyB row l = l.any (fun c => Cond.evalB row c) := by
  induction l with
  | nil => rfl
  | cons c l ih => simp [Cond.evalAnyB, ih]

theorem buildFilters_eq {κ : Type} (resolve : String → Option κ)
    (fs : List ScopeFilter) (acc : List (Cond κ)) :
    buildFilters resolve acc fs =
      if fs.all (fun f => (resolve f.property).isSome) then
        some (acc ++ fs.filterMap (fun f =>
          (resolve f.property).map (fun col => Cond.isIn col f.values)))
      else none := by
  induction fs generalizing acc with
  | nil => simp [buildFilters]
  | cons f rest ih =>
    obtain ⟨prop, op, vals⟩ := f
    cases op
    cases hres : resolve prop with
    | none => simp [buildFilters, hres]
    | some col => simp [buildFilters, hres, ih, List.filterMap_cons]

theorem build_constraint_none_iff {κ : Type} (resolve : String → Option κ)
    (c : ScopeConstraint) :
    build_constraint_condition resolve c = none ↔ resolvableB resolve c = false := by
  obtain ⟨fs⟩ := c
  by_cases hemp : fs = []
  · subst hemp
    simp [build_constraint_condition, ScopeConstraint.is_empty, resolvableB]
  · have hne : (ScopeConstraint.mk fs).is_empty = false := by
      simp [ScopeConstraint.is_empty, hemp]
    rw [build_constraint_condition, hne, buildFilters_eq]
    by_cases hall : fs.all (fun f => (resolve f.property).isSome) = true
    · simp [hall, resolvableB]
    · simp only [Bool.not_eq_true] at hall
      simp [hall, resolvableB]

theorem evalAll_filterMap {κ : Type} (resolve : String → Option κ) (row : κ → Uuid)
    (fs : List ScopeFilter) (hall : fs.all (fun f => (resolve f.property).isSome) = true) :
    Cond.evalAllB row (fs.filterMap (fun f =>
      (resolve f.property).map (fun col => Cond.isIn col f.values))) =
      fs.all (filterSatT resolve row) := by
  induction fs with
  | nil => rfl
  | cons f rest ih =>
    rw [List.all_cons, Bool.and_eq_true] at hall
    obtain ⟨prop, op, vals⟩ := f
    obtain ⟨col, hcol⟩ := Option.isSome_iff_exists.mp hall.1
    cases op
    simp [List.filterMap_cons, hcol, Cond.evalAllB, filterSatT, ih hall.2, Cond.evalB]

theorem eval_build_constraint_some {κ : Type} (resolve : String → Option κ) (row : κ → Uuid)
    (c : ScopeConstraint) (cond : Cond κ)
    (h : build_constraint_condition resolve c = some cond) :
    Cond.evalB row cond = constraintSatT resolve row c := by
  obtain ⟨fs⟩ := c
  by_cases hemp : fs = []
  · subst hemp
    simp [build_constraint_condition, ScopeConstraint.is_empty] at h
    rw [← h]
    simp [Cond.evalB, Cond.evalAllB, constraintSatT]
  · have hne : (ScopeConstraint.mk fs).is_empty = false := by
      simp [ScopeConstraint.is_empty, hemp]
    rw [build_constraint_condition, hne, buildFilters_eq] at h
    by_cases hall : fs.all (fun f => (resolve f.property).isSome) = true
    · simp only [hall, if_true, Bool.false_eq_true, if_false, List.nil_append,
        Option.map_some', Option.some.injEq] at h
      rw [← h]
      simp only [Cond.evalB]
      exact evalAll_filterMap resolve row fs hall
    · simp [hall] at h

theorem eval_filterMap_constraints {κ : Type} (resolve : String → Option κ) (row : κ → Uuid)
    (cs : List ScopeConstraint) :
    (cs.filterMap (build_constraint_condition resolve)).any (fun cond => Cond.evalB row cond) =
      (cs.filter (resolvableB resolve)).any (constraintSatT resolve row) := by
  induction cs with
  | nil => rfl
  | cons c cs ih =>
    by_cases hres : resolvableB resolve c = true
    · cases hb : build_constraint_condition resolve c with
      | none =>
        rw [build_constraint_none_iff] at hb
        rw [hres] at hb
        cases hb
      | some cond =>
        simp [List.filterMap_cons, hb, List.filter_cons, hres, List.any_cons, ih,
          eval_build_constraint_some resolve row c cond hb]
    · have hb : build_constraint_condition resolve c = none :=
        (build_constraint_none_iff resolve c).mpr (by simpa using hres)
      simp [List.filterMap_cons, hb, List.filter_cons, hres, ih]

/-- Claim C6: the ordered translator semantics of build_scope_condition:
an unconstrained scope translates to an always-true condition; a deny-all
scope to an always-false condition; otherwise every constraint containing a
filter whose property does not resolve is discarded and the surviving
constraints are OR-ed with their filters AND-ed (an In filter becoming
column-IN-values), the empty survivor set giving an always-false
condition. -/
theorem build_scope_condition_semantics {κ : Type} (resolve : String → Option κ)
    (scope : AccessScope) (row : κ → Uuid) :
    (scope.is_unconstrained = true →
      Cond.evalB row (build_scope_condition resolve scope) = true) ∧
    (scope.is_unconstrained = false → scope.is_deny_all = true →
      Cond.evalB row (build_scope_condition resolve scope) = false) ∧
    (scope.is_unconstrained = false → scope.is_deny_all = false →
      Cond.evalB row (build_scope_condition resolve scope) =
        (scope.constraints.filter (resolvableB resolve)).any (constraintSatT resolve row)) := by
  refine ⟨fun hu => ?_, fun hu hd => ?_, fun hu hd => ?_⟩
  · simp [build_scope_condition, hu, Cond.evalB, Cond.evalAllB]
  · simp [build_scope_condition, hu, hd, deny_all, Cond.evalB, Cond.evalAllB]
  · rw [← eval_filterMap_constraints resolve row scope.constraints]
    rw [build_scope_condition]
    simp only [hu, hd, Bool.false_eq_true, if_false]
    cases hcp : scope.constraints.filterMap (build_constraint_condition resolve) with
    | nil => simp [deny_all, Cond.evalB, Cond.evalAllB]
    | cons c rest =>
      cases rest with
      | nil => simp [Cond.evalB, List.any_cons]
      | cons c2 rest2 =>
        simp [Cond.evalB, evalAnyB_eq_any]

end Secure

/-- Witness for build_scope_condition_semantics: the three branches at
allow_all, deny_all and a mixed constrained scope. -/
theorem build_scope_condition_semantics_witness :
    Cond.evalB rowW (Secure.build_scope_condition resolveW AccessScope.allow_all) = true ∧
    Cond.evalB rowW (Secure.build_scope_condition resolveW AccessScope.deny_all) = false ∧
    Cond.evalB rowW (Secure.build_scope_condition resolveW scopeW) =
      (scopeW.constraints.filter (Secure.resolvableB resolveW)).any
        (Secure.constraintSatT resolveW rowW) :=
  ⟨(Secure.build_scope_condition_semantics resolveW AccessScope.allow_all rowW).1 rfl,
   (Secure.build_scope_condition_semantics resolveW AccessScope.deny_all rowW).2.1 rfl rfl,
   (Secure.build_scope_condition_semantics resolveW scopeW rowW).2.2 rfl rfl⟩

/-- Claim C7: a default-constructed AccessScope has unconstrained=false and
no constraints, satisfies is_deny_all, and its translated storage condition
rejects every row of every entity. -/
theorem default_scope_denies {κ : Type} (resolve : String → Option κ) (row : κ → Uuid) :
    AccessScope.default.unconstrained = false ∧
    AccessScope.default.constraints = [] ∧
    AccessScope.default.is_deny_all = true ∧
    Cond.evalB row (Secure.build_scope_condition resolve AccessScope.default) = false :=
  ⟨rfl, rfl, rfl, rfl⟩

/-- Claim C8 is false on the code: for_tenants given only an empty value
list does not collapse to deny-all; it produces a constrained scope whose
single ScopeFilter has an empty values vector. -/
theorem for_tenants_empty_values_filter :
    (AccessScope.for_tenants []).constraints =
      [⟨[⟨"owner_tenant_id", FilterOp.In, []⟩]⟩] ∧
    (AccessScope.for_tenants []).is_deny_all = false ∧
    noEmptyFilter (AccessScope.for_tenants []) = false :=
  ⟨rfl, rfl, by decide⟩

/-- Claim C8 (amended): deny_all, allow_all, for_tenant, for_resource,
for_tenants/for_resources on non-empty input and for_tenants_and_resources
never contain an empty-values filter, and for_tenants_and_resources given
only empty value lists collapses to deny-all; but for_tenants and
for_resources given the empty list keep an empty-values filter instead of
collapsing, and from_constraints passes caller filters through unchanged. -/
theorem constructors_no_empty_filter (t r : List Uuid) (x : Uuid)
    (ht : t ≠ []) (hr : r ≠ []) :
    noEmptyFilter AccessScope.deny_all = true ∧
    noEmptyFilter AccessScope.allow_all = true ∧
    noEmptyFilter (AccessScope.for_tenant x) = true ∧
    noEmptyFilter (AccessScope.for_resource x) = true ∧
    noEmptyFilter (AccessScope.for_tenants t) = true ∧
    noEmptyFilter (AccessScope.for_resources r) = true ∧
    (∀ t2 r2 : List Uuid,
      noEmptyFilter (AccessScope.for_tenants_and_resources t2 r2) = true) ∧
    AccessScope.for_tenants_and_resources [] [] = AccessScope.deny_all ∧
    (∀ cs, (AccessScope.from_constraints cs).constraints = cs) := by
  refine ⟨by decide, by decide, rfl, rfl, ?_, ?_, ?_, by decide, fun cs => rfl⟩
  · simp [noEmptyFilter, AccessScope.for_tenants, AccessScope.single,
      AccessScope.from_constraints, ScopeConstraint.new, ScopeFilter.new, ht]
  · simp [noEmptyFilter, AccessScope.for_resources, AccessScope.single,
      AccessScope.from_constraints, ScopeConstraint.new, ScopeFilter.new, hr]
  · intro t2 r2
    by_cases h2 : t2.isEmpty = true <;> by_cases h3 : r2.isEmpty = true <;>
      simp [noEmptyFilter, AccessScope.for_tenants_and_resources, AccessScope.single,
        AccessScope.from_constraints, AccessScope.deny_all, ScopeConstraint.new,
        ScopeFilter.new, h2, h3]

/-- Witness for constructors_no_empty_filter with non-empty input lists. -/
theorem constructors_no_empty_filter_witness :
    noEmptyFilter (AccessScope.for_tenants [uA]) = true ∧
    noEmptyFilter (AccessScope.for_resources [uB]) = true ∧
    AccessScope.for_tenants_and_resources [] [] = AccessScope.deny_all :=
  ⟨(constructors_no_empty_filter [uA] [uB] uA (by decide) (by decide)).2.2.2.2.1,
   (constructors_no_empty_filter [uA] [uB] uA (by decide) (by decide)).2.2.2.2.2.1,
   (constructors_no_empty_filter [uA] [uB] uA (by decide) (by decide)).2.2.2.2.2.2.2.1⟩

/-- Claim C9 is false as universally stated: for the pair of contexts
differing only in their bearer token (get versus tokenx), the two Debug
renderings are identical, yet — the token of the first coinciding with the
action name — the rendering does contain that raw token string, violating
the claim that neither rendering contains either token. -/
theorem debug_render_contains_coincident_token :
    ctxLeak.bearer_token = some "get" ∧
    ctxLeak2.bearer_token = some "tokenx" ∧
    Pep.EvaluationRequest.debugRender
        (build_request_with [] ctxLeak resourceUser "get" none true AccessRequest.default) =
      Pep.EvaluationRequest.debugRender
        (build_request_with [] ctxLeak2 resourceUser "get" none true AccessRequest.default) ∧
    strOccurs "get" (Pep.EvaluationRequest.debugRender
      (build_request_with [] ctxLeak resourceUser "get" none true AccessRequest.default)) = true :=
  ⟨rfl, rfl, rfl, by decide⟩

/-- Claim C9 (amended): the Debug rendering of a built request is
independent of the bearer token: for any two security contexts differing
only in their (present) bearer token value the renderings are identical
(the token renders as the fixed placeholder), and a token appears in a
rendering only when it coincides with text contributed by the non-secret
fields: whenever it does not occur in the token-independent rendering, it
does not occur at all. -/
theorem debug_render_token_independent
    (caps : List Pep.Capability) (sid : Uuid) (stid : Option Uuid) (sty : Option String)
    (scopes : List String) (t1 t2 : String) (resource : ResourceType) (action : String)
    (rid : Option Uuid) (rc : Bool) (areq : AccessRequest) :
    Pep.EvaluationRequest.debugRender (build_request_with caps
        ⟨sid, stid, sty, scopes, some t1⟩ resource action rid rc areq) =
      Pep.EvaluationRequest.debugRender (build_request_with caps
        ⟨sid, stid, sty, scopes, some t2⟩ resource action rid rc areq) ∧
    (strOccurs t1 (Pep.EvaluationRequest.debugRender (build_request_with caps
        ⟨sid, stid, sty, scopes, some t2⟩ resource action rid rc areq)) = false →
      strOccurs t1 (Pep.EvaluationRequest.debugRender (build_request_with caps
        ⟨sid, stid, sty, scopes, some t1⟩ resource action rid rc areq)) = false) ∧
    (strOccurs t2 (Pep.EvaluationRequest.debugRender (build_request_with caps
        ⟨sid, stid, sty, scopes, some t1⟩ resource action rid rc areq)) = false →
      strOccurs t2 (Pep.EvaluationRequest.debugRender (build_request_with caps
        ⟨sid, stid, sty, scopes, some t2⟩ resource action rid rc areq)) = false) := by
  have hind : Pep.EvaluationRequest.debugRender (build_request_with caps
      ⟨sid, stid, sty, scopes, some t1⟩ resource action rid rc areq) =
      Pep.EvaluationRequest.debugRender (build_request_with caps
      ⟨sid, stid, sty, scopes, some t2⟩ resource action rid rc areq) := rfl
  exact ⟨hind, fun h => by rw [hind]; exact h, fun h => by rw [← hind]; exact h⟩

set_option maxRecDepth 8192 in
/-- Witness for debug_render_token_independent at two concrete tokens that
do not coincide with any non-secret field text. -/
theorem debug_render_token_independent_witness :
    (Pep.EvaluationRequest.debugRender (build_request_with []
        ⟨uA, some uB, none, [], some "tokenone"⟩ resourceUser "list" none true
        AccessRequest.default) =
      Pep.EvaluationRequest.debugRender (build_request_with []
        ⟨uA, some uB, none, [], some "tokentwo"⟩ resourceUser "list" none true
        AccessRequest.default)) ∧
    strOccurs "tokenone" (Pep.EvaluationRequest.debugRender (build_request_with []
      ⟨uA, some uB, none, [], some "tokenone"⟩ resourceUser "list" none true
      AccessRequest.default)) = false ∧
    strOccurs "tokentwo" (Pep.EvaluationRequest.debugRender (build_request_with []
      ⟨uA, some uB, none, [], some "tokentwo"⟩ resourceUser "list" none true
      AccessRequest.default)) = false :=
  have h := debug_render_token_independent [] uA (some uB) none [] "tokenone" "tokentwo"
    resourceUser "list" none true AccessRequest.default
  ⟨h.1, h.2.1 (by decide), h.2.2 (by decide)⟩

/-- Witness for default_scope_denies at the two-column entity and a
concrete row. -/
theorem default_scope_denies_witness :
    AccessScope.default.is_deny_all = true ∧
    Cond.evalB rowW (Secure.build_scope_condition resolveW AccessScope.default) = false :=
  ⟨(default_scope_denies resolveW rowW).2.2.1, (default_scope_denies resolveW rowW).2.2.2⟩
